import Mathlib

/-!
Verification of the Sunbiz scraper (src/main.py, src/telegram_bot.py) against
its specification.  Strings are modelled as lists of characters; the pure
Python string operations used by the code (str.split, str.strip, str.replace,
str.splitlines, str.lower, substring test) are embedded directly, and the
scraping / Telegram I/O boundary is modelled by explicit function parameters
(the page returned for a listing URL, the detail sections returned for a
detail URL, the filesystem, the outcome of one pipeline invocation).
-/

set_option maxRecDepth 4000

abbrev Str := List Char

/-- Whitespace for Python's `str.split()` / `str.strip()` (Py_UNICODE_ISSPACE):
tab..carriage-return, file/group/record/unit separators, space, next-line,
no-break space and the Unicode space block. -/
def isPySpace (c : Char) : Bool :=
  decide ((9 ≤ c.toNat ∧ c.toNat ≤ 13) ∨ (28 ≤ c.toNat ∧ c.toNat ≤ 31) ∨
    c.toNat = 32 ∨ c.toNat = 133 ∨ c.toNat = 160 ∨ c.toNat = 5760 ∨
    (8192 ≤ c.toNat ∧ c.toNat ≤ 8202) ∨ c.toNat = 8232 ∨ c.toNat = 8233 ∨
    c.toNat = 8239 ∨ c.toNat = 8287 ∨ c.toNat = 12288)

/-- Accumulator worker for Python `str.split()` with no separator: maximal
runs of non-whitespace, empty pieces discarded.  `cur` is the current word,
reversed. -/
def pySplitAux : Str → Str → List Str
  | [], cur => if cur = [] then [] else [cur.reverse]
  | c :: cs, cur =>
    if isPySpace c then
      if cur = [] then pySplitAux cs [] else cur.reverse :: pySplitAux cs []
    else pySplitAux cs (c :: cur)

/-- Python `s.split()` (no separator argument). -/
def pySplit (s : Str) : List Str := pySplitAux s []

/-- Python `s.strip()`: drop whitespace from both ends. -/
def pyStrip (s : Str) : Str :=
  ((s.dropWhile fun c => isPySpace c).reverse.dropWhile fun c => isPySpace c).reverse

/-- Python `s.replace("\n", " ")` (single-character target, hence a map). -/
def pyReplaceNlSp (s : Str) : Str :=
  s.map fun c => if c = '\n' then ' ' else c

/-- Python `" ".join(ws)`. -/
def joinWords : List Str → Str
  | [] => []
  | [w] => w
  | w :: ws => w ++ ' ' :: joinWords ws

/-- Python `s.lower()` (ASCII case folding). -/
def pyLower (s : Str) : Str := s.map Char.toLower

/-- Python substring test `needle in hay`. -/
def strContains (needle hay : Str) : Bool :=
  hay.tails.any fun t => needle.isPrefixOf t

/-- Python `dict.get(k, "")` on a label-to-value mapping represented as an
association list with distinct keys (as produced by `_extract_detail_sections`). -/
def dictGet (d : List (Str × Str)) (k : Str) : Str :=
  match d with
  | [] => []
  | kv :: rest => if kv.1 = k then kv.2 else dictGet rest k

/-- Line-boundary characters of Python `str.splitlines()`:
\n \v \f \r \x1c \x1d \x1e \x85     (\r\n is one boundary). -/
def isPyLineBreak (c : Char) : Bool :=
  decide (c.toNat = 10 ∨ c.toNat = 11 ∨ c.toNat = 12 ∨ c.toNat = 13 ∨
    c.toNat = 28 ∨ c.toNat = 29 ∨ c.toNat = 30 ∨ c.toNat = 133 ∨
    c.toNat = 8232 ∨ c.toNat = 8233)

/-- Accumulator worker for Python `str.splitlines()`; no trailing empty line
for a terminal line break, `\r\n` counts as a single boundary. -/
def pySplitlinesAux : Str → Str → List Str
  | [], cur => if cur = [] then [] else [cur.reverse]
  | '\r' :: '\n' :: cs, cur => cur.reverse :: pySplitlinesAux cs []
  | c :: cs, cur =>
    if isPyLineBreak c then cur.reverse :: pySplitlinesAux cs []
    else pySplitlinesAux cs (c :: cur)

/-- Python `s.splitlines()`. -/
def pySplitlines (s : Str) : List Str := pySplitlinesAux s []

/-! ## src/main.py — address classifier -/

/-- Constant `BASE_URL = "https://search.sunbiz.org"` (main.py line 11). -/
def BASE_URL : Str := "https://search.sunbiz.org".data

/-- Word character for the regex `\b` boundary (`\w` = alphanumeric or
underscore; ASCII fragment). -/
def isWordChar (c : Char) : Bool := c.isAlphanum || c = '_'

/-- Match one literal character, case-insensitively (re.IGNORECASE);
returns the rest of the input on success. -/
def lchar (c : Char) (s : Str) : Option Str :=
  match s with
  | [] => none
  | d :: rest => if d.toLower = c then some rest else none

/-- Match a literal string, case-insensitively. -/
def lstr : Str → Str → Option Str
  | [], s => some s
  | c :: cs, s =>
    match lchar c s with
    | some r => lstr cs r
    | none => none

/-- Regex `\.?`.  The pattern atoms that follow `\.?` here are letters or
`\s*`-then-letter, so consuming the dot when present is equivalent to the
backtracking semantics. -/
def optDot (s : Str) : Str :=
  match s with
  | '.' :: r => r
  | _ => s

/-- Regex `\s*`.  Always followed by a letter atom in this pattern, so the
maximal munch is equivalent to the backtracking semantics. -/
def skipWs (s : Str) : Str := s.dropWhile fun c => isPySpace c

/-- First alternative of PO_BOX_PATTERN (main.py lines 16-19):
`p\.?\s*o\.?\s*box`. -/
def matchAlt1 (s : Str) : Option Str :=
  match lchar 'p' s with
  | none => none
  | some r =>
    match lchar 'o' (skipWs (optDot r)) with
    | none => none
    | some r2 => lstr ['b', 'o', 'x'] (skipWs (optDot r2))

/-- Second alternative of PO_BOX_PATTERN: `post\s*office\s*box`. -/
def matchAlt2 (s : Str) : Option Str :=
  match lstr ['p', 'o', 's', 't'] s with
  | none => none
  | some r =>
    match lstr ['o', 'f', 'f', 'i', 'c', 'e'] (skipWs r) with
    | none => none
    | some r2 => lstr ['b', 'o', 'x'] (skipWs r2)

/-- Third alternative of PO_BOX_PATTERN: `p\.?o\.?\.?box`. -/
def matchAlt3 (s : Str) : Option Str :=
  match lchar 'p' s with
  | none => none
  | some r =>
    match lchar 'o' (optDot r) with
    | none => none
    | some r2 => lstr ['b', 'o', 'x'] (optDot (optDot r2))

/-- The alternation `(?:p\.?\s*o\.?\s*box|post\s*office\s*box|p\.?o\.?\.?box)`.
All alternatives end immediately after the literal `box`, so the returned
rest is branch-independent. -/
def matchPoBoxAlt (s : Str) : Option Str :=
  match matchAlt1 s with
  | some r => some r
  | none =>
    match matchAlt2 s with
    | some r => some r
    | none => matchAlt3 s

/-- Search of PO_BOX_PATTERN: try the alternation at every position, with the
`\b` boundaries (the pattern starts and ends with word characters, so the
left boundary needs a non-word predecessor and the right boundary a non-word
successor).  `prevWord` records whether the previous character was a word
character (false at the start of the string). -/
def poBoxSearchAux (prevWord : Bool) : Str → Bool
  | [] => false
  | c :: cs =>
    (!prevWord &&
      (match matchPoBoxAlt (c :: cs) with
       | some rest =>
         match rest with
         | [] => true
         | d :: _ => !isWordChar d
       | none => false))
    || poBoxSearchAux (isWordChar c) cs

/-- The value `bool(PO_BOX_PATTERN.search(text))`. -/
def poBoxSearch (s : Str) : Bool := poBoxSearchAux false s

/-- Function `_is_po_box_or_empty` (main.py lines 36-40): true if the text is empty or
whitespace-only, else whether the PO-Box pattern occurs in it. -/
def _is_po_box_or_empty (text : Str) : Bool :=
  if text.isEmpty || (pyStrip text).isEmpty then true
  else poBoxSearch text

/-- Function `_normalize_address` (main.py lines 43-45):
`" ".join(addr.replace("\n", " ").split()).strip()`. -/
def _normalize_address (addr : Str) : Str :=
  pyStrip (joinWords (pySplit (pyReplaceNlSp addr)))

/-- Function `_has_valid_address` (main.py lines 48-54): some key containing
"address" (case-insensitively) maps to a truthy value that is not empty and
not a PO Box. -/
def _has_valid_address (details : List (Str × Str)) : Bool :=
  details.any fun kv =>
    strContains "address".data (pyLower kv.1) && !kv.2.isEmpty &&
      !_is_po_box_or_empty kv.2


/-! ## src/main.py — scrape pipeline

The browser (out of scope per spec §1/§6) is modelled by two functions:
`site`, giving for each listing URL the extraction outcome on that page
(`_extract_search_results` rows plus the raw href behind the "Next List"
control), and `detailSite`, giving for each detail URL the outcome of
`_extract_detail_sections`.  Re-navigating to the same URL yields the same
page (deterministic site), matching the code's re-goto of `current_url`
before reading the next link. -/

/-- One row as produced by `_extract_search_results` (main.py lines 82-102). -/
structure ResultRow where
  corporate_name : Str
  document_number : Str
  status : Str
  detail_path : Str
deriving DecidableEq

/-- A rendered listing page: its extracted rows, and the `href` attribute of
the first `a[title="Next List"]` locator (`none` when the locator is absent). -/
structure ListingPage where
  rows : List ResultRow
  next_href : Option Str
deriving DecidableEq

/-- A persisted record (main.py lines 160-166). -/
structure DetailRecord where
  corporate_name : Str
  document_number : Str
  status : Str
  detail_url : Str
  details : List (Str × Str)
deriving DecidableEq

/-- Function `_get_next_list_url` (main.py lines 57-65): `None` if the link is absent
or its href falsy, else the href resolved against BASE_URL when relative. -/
def _get_next_list_url (page : ListingPage) : Option Str :=
  match page.next_href with
  | none => none
  | some href =>
    if href.isEmpty then none
    else if href.headD ' ' = '/' then some (BASE_URL ++ href) else some href

/-- The expression `BASE_URL + detail_path if detail_path.startswith("/") else detail_path`
(main.py line 145). -/
def detailUrlOf (detail_path : Str) : Str :=
  if detail_path.headD ' ' = '/' then BASE_URL ++ detail_path else detail_path

/-- Key `"Principal Address"` (main.py line 153). -/
def principalAddressKey : Str := "Principal Address".data

/-- Method `Path.read_text`: raises (error) when the file is absent.  The
filesystem is a partial map from path to content. -/
def read_text (fs : Str → Option Str) (p : Str) : Except Unit Str :=
  match fs p with
  | some t => Except.ok t
  | none => Except.error ()

/-- The set comprehension of main.py line 130:
`{line.strip() for line in text.splitlines() if line.strip()}`
(a set of strings; modelled as a list, membership is what matters). -/
def seenFromText (t : Str) : List Str :=
  ((pySplitlines t).map pyStrip).filter fun l => !l.isEmpty

/-- Seen-store loading (main.py lines 126-130): empty when no path is given
or the file does not exist; otherwise the non-empty stripped lines of the
file.  The `p.exists()` guard means `read_text` is only called on an
existing file, so no error can escape. -/
def load_seen (seen_path : Option Str) (fs : Str → Option Str) :
    Except Unit (List Str) :=
  match seen_path with
  | none => Except.ok []
  | some p =>
    if (fs p).isSome then
      match read_text fs p with
      | Except.ok t => Except.ok (seenFromText t)
      | Except.error e => Except.error e
    else Except.ok []

/-- The successfully loaded seen set (`load_seen` never errors; the error
default is dead code). -/
def load_seen_ok (seen_path : Option Str) (fs : Str → Option Str) : List Str :=
  match load_seen seen_path fs with
  | Except.ok s => s
  | Except.error _ => []

/-- The test `max_results is not None and len(results) >= max_results`
(main.py lines 142 and 170). -/
def capReached (max_results : Option Nat) (n : Nat) : Bool :=
  match max_results with
  | none => false
  | some m => decide (m ≤ n)

/-- The `for row in rows` body of `fetch_sunbiz_data` (main.py lines
141-168): break on the cap, skip rows without a valid address, without a
non-empty Principal Address, or whose normalized Principal Address was
already seen; otherwise record the entity and mark its address seen. -/
def processRows (detailSite : Str → List (Str × Str)) (max_results : Option Nat) :
    List ResultRow → List DetailRecord → List Str →
    List DetailRecord × List Str
  | [], results, seen => (results, seen)
  | row :: rest, results, seen =>
    if capReached max_results results.length then (results, seen)
    else
      let detail_url := detailUrlOf row.detail_path
      let details := detailSite detail_url
      if !_has_valid_address details then
        processRows detailSite max_results rest results seen
      else
        let addr := pyStrip (dictGet details principalAddressKey)
        if addr.isEmpty then processRows detailSite max_results rest results seen
        else
          let normalized := _normalize_address addr
          if normalized ∈ seen then
            processRows detailSite max_results rest results seen
          else
            processRows detailSite max_results rest
              (results ++
                [{ corporate_name := row.corporate_name
                   document_number := row.document_number
                   status := row.status
                   detail_url := detail_url
                   details := details }])
              (normalized :: seen)

/-- The `while current_url` loop of `fetch_sunbiz_data` (main.py lines
136-174), with explicit fuel for the number of listing pages visited
(`none` = fuel exhausted before the chain ended).  `_get_next_list_url`
never returns an empty (falsy) URL, so the loop condition is `isSome`. -/
def fetchLoop (site : Str → ListingPage) (detailSite : Str → List (Str × Str))
    (max_results : Option Nat) :
    Nat → Option Str → List DetailRecord → List Str →
    Option (List DetailRecord × List Str)
  | _, none, results, seen => some (results, seen)
  | 0, some _, _, _ => none
  | fuel + 1, some url, results, seen =>
    let page := site url
    let rs := processRows detailSite max_results page.rows results seen
    if capReached max_results rs.1.length then some rs
    else fetchLoop site detailSite max_results fuel (_get_next_list_url (site url)) rs.1 rs.2

/-- Function `fetch_sunbiz_data` (main.py lines 105-191), up to the returned record
list: load the seen set, run the pagination loop from the search URL.  The
artifact writes (JSON, TXT, seen save, lines 176-189) do not affect the
returned list and are not modelled. -/
def fetch_sunbiz_data (site : Str → ListingPage)
    (detailSite : Str → List (Str × Str)) (search_url : Str)
    (max_results : Option Nat) (seen_path : Option Str)
    (fs : Str → Option Str) (fuel : Nat) :
    Option (List DetailRecord × List Str) :=
  fetchLoop site detailSite max_results fuel (some search_url) []
    (load_seen_ok seen_path fs)

/-- A finite chain of listing pages: each page's "Next List" link resolves to
the next URL in the chain, the last page has none. -/
def nextChain (site : Str → ListingPage) : List Str → Prop
  | [] => True
  | [u] => _get_next_list_url (site u) = none
  | u :: v :: rest => _get_next_list_url (site u) = some v ∧ nextChain site (v :: rest)

/-- The normalized Principal Address of a record, as the pipeline computes it
(main.py lines 153 and 156). -/
def normOf (r : DetailRecord) : Str :=
  _normalize_address (pyStrip (dictGet r.details principalAddressKey))

/-! ## src/telegram_bot.py — job queue worker

The bot transport is out of scope (spec §1/§6); a job's interaction with the
requester is modelled as a trace of events.  `queue_worker` in the source is
the single consumer task created once in `post_init`, looping over an
`asyncio.Queue` (FIFO) and awaiting each step, so one pass of the loop is
modelled as the event segment of one job, and a run of the worker over the
jobs in enqueue order as the concatenation of the segments. -/

/-- The outcome of one `fetch_sunbiz_data` invocation inside
`run_fetch_sync`: it either raises, or returns a record list, with the
generated TXT artifact present or not. -/
inductive FetchOutcome where
  | raises : FetchOutcome
  | returns : List DetailRecord → Bool → FetchOutcome
deriving DecidableEq

/-- Function `run_fetch_sync` (telegram_bot.py lines 38-55): any exception from the
pipeline is caught and turned into `None`; an empty result list gives
`None`; otherwise the TXT path is returned iff it exists (the `Bool` carried
in `some` is the path's exists flag, hence `true`). -/
def run_fetch_sync (out : FetchOutcome) : Option Bool :=
  match out with
  | FetchOutcome.raises => none
  | FetchOutcome.returns results txtExists =>
    if results.isEmpty then none
    else if txtExists then some txtExists else none

/-- One job of the request queue (telegram_bot.py line 14):
`(chat_id, keyword, count)`. -/
structure Job where
  chat_id : Nat
  keyword : Str
  count : Nat
deriving DecidableEq

/-- Requester-visible events of one worker pass. -/
inductive BotEvent where
  | procStart : Nat → BotEvent
  | pipeStart : Nat → BotEvent
  | pipeEnd : Nat → BotEvent
  | noResults : Nat → BotEvent
  | delivered : Nat → BotEvent
deriving DecidableEq

/-- One pass of the worker loop body (telegram_bot.py lines 63-93) for one
dequeued job: the "Procesando" notice, the single pipeline invocation
(bracketed by `pipeStart`/`pipeEnd`), then either the
"No se encontraron direcciones nuevas o hubo un error" notice (when
`run_fetch_sync` returned `None` or the file does not exist) or the document
delivery.  `outcome` gives the pipeline's behaviour on each job. -/
def processJob (outcome : Job → FetchOutcome) (j : Job) : List BotEvent :=
  [BotEvent.procStart j.chat_id, BotEvent.pipeStart j.chat_id,
   BotEvent.pipeEnd j.chat_id] ++
  (match run_fetch_sync (outcome j) with
   | none => [BotEvent.noResults j.chat_id]
   | some ex =>
     if ex then [BotEvent.delivered j.chat_id] else [BotEvent.noResults j.chat_id])

/-- The worker loop `queue_worker` (telegram_bot.py lines 58-100) over the
jobs in FIFO enqueue order. -/
def queue_worker (outcome : Job → FetchOutcome) : List Job → List BotEvent
  | [] => []
  | j :: rest => processJob outcome j ++ queue_worker outcome rest

/-- Running in-flight pipeline count and its running maximum, over a trace. -/
def inflightStep (st : Nat × Nat) (e : BotEvent) : Nat × Nat :=
  match e with
  | BotEvent.pipeStart _ => (st.1 + 1, max st.2 (st.1 + 1))
  | BotEvent.pipeEnd _ => (st.1 - 1, st.2)
  | _ => st

/-- The maximum number of simultaneously in-flight pipeline invocations along
a trace. -/
def maxInFlight (t : List BotEvent) : Nat :=
  (t.foldl inflightStep (0, 0)).2

/-! ## Helper lemmas -/

theorem is_po_box_or_empty_of_isEmpty (v : Str) (h : v.isEmpty = true) :
    _is_po_box_or_empty v = true := by
  unfold _is_po_box_or_empty
  rw [h]
  simp

theorem queue_worker_append (outcome : Job → FetchOutcome) (a b : List Job) :
    queue_worker outcome (a ++ b) =
      queue_worker outcome a ++ queue_worker outcome b := by
  induction a with
  | nil => simp [queue_worker]
  | cons j rest ih => simp [queue_worker, ih]

/-! ## Claims -/

/-- C7: `_has_valid_address d` is true iff some key of `d` containing
"address" case-insensitively has a value that is neither empty nor a PO Box
per `_is_po_box_or_empty`; in particular it accepts
`{"Mailing Address": "PO Box 1", "Principal Address": "123 Main St"}` and
rejects `{"Mailing Address": "PO Box 1"}`. -/
theorem c7_has_valid_address_iff :
    (∀ d : List (Str × Str), _has_valid_address d = true ↔
      ∃ kv, kv ∈ d ∧ strContains "address".data (pyLower kv.1) = true ∧
        _is_po_box_or_empty kv.2 = false)
    ∧ _has_valid_address [("Mailing Address".data, "PO Box 1".data),
        ("Principal Address".data, "123 Main St".data)] = true
    ∧ _has_valid_address [("Mailing Address".data, "PO Box 1".data)] = false := by
  refine ⟨fun d => ?_, by decide, by decide⟩
  unfold _has_valid_address
  rw [List.any_eq_true]
  constructor
  · rintro ⟨kv, hmem, hcond⟩
    rw [Bool.and_eq_true, Bool.and_eq_true] at hcond
    refine ⟨kv, hmem, hcond.1.1, ?_⟩
    have := hcond.2
    rwa [Bool.not_eq_true'] at this
  · rintro ⟨kv, hmem, hc, hp⟩
    refine ⟨kv, hmem, ?_⟩
    rw [Bool.and_eq_true, Bool.and_eq_true, Bool.not_eq_true', Bool.not_eq_true']
    refine ⟨⟨hc, ?_⟩, hp⟩
    cases hv : kv.2.isEmpty with
    | false => rfl
    | true => rw [is_po_box_or_empty_of_isEmpty kv.2 hv] at hp; cases hp

/-- C8: `_is_po_box_or_empty` accepts the empty string, whitespace,
"P.O. Box 123", "PO BOX 45", "Post Office Box 9", rejects "123 Main St",
and in general is true exactly when the input is empty/whitespace-only or
the PO-Box pattern occurs in it. -/
theorem c8_po_box_classifier :
    _is_po_box_or_empty [] = true
    ∧ _is_po_box_or_empty "   ".data = true
    ∧ _is_po_box_or_empty "P.O. Box 123".data = true
    ∧ _is_po_box_or_empty "PO BOX 45".data = true
    ∧ _is_po_box_or_empty "Post Office Box 9".data = true
    ∧ _is_po_box_or_empty "123 Main St".data = false
    ∧ ∀ t : Str, _is_po_box_or_empty t = true ↔
        (pyStrip t = [] ∨ poBoxSearch t = true) := by
  refine ⟨by decide, by decide, by decide, by decide, by decide, by decide,
    fun t => ?_⟩
  unfold _is_po_box_or_empty
  by_cases hs : pyStrip t = []
  · simp [hs]
  · have ht : t ≠ [] := fun h => hs (by rw [h]; rfl)
    simp [hs, ht]

/-- C9: loading the seen store never errors: with no path or an absent file
the run proceeds with an empty seen set, and with an existing file the seen
set is exactly the set of the file's non-empty stripped lines. -/
theorem c9_load_seen_total :
    (∀ (seen_path : Option Str) (fs : Str → Option Str),
      ∃ s, load_seen seen_path fs = Except.ok s)
    ∧ (∀ (p : Str) (fs : Str → Option Str), fs p = none →
        load_seen (some p) fs = Except.ok [])
    ∧ (∀ (p : Str) (fs : Str → Option Str) (t : Str), fs p = some t →
        load_seen (some p) fs = Except.ok (seenFromText t))
    ∧ (∀ (t : Str) (x : Str), x ∈ seenFromText t ↔
        x ≠ [] ∧ ∃ line ∈ pySplitlines t, pyStrip line = x) := by
  refine ⟨fun sp fs => ?_, fun p fs h => ?_, fun p fs t h => ?_,
    fun t x => ?_⟩
  · match sp with
    | none => exact ⟨[], rfl⟩
    | some p =>
      unfold load_seen
      cases h : fs p with
      | none => simp [h]
      | some t => simp [h, read_text]
  · unfold load_seen
    simp [h]
  · unfold load_seen
    simp [h, read_text]
  · have hiff : ∀ y : Str, y.isEmpty = false ↔ y ≠ [] := fun y => by
      cases y <;> simp
    unfold seenFromText
    simp only [List.mem_filter, List.mem_map, Bool.not_eq_true', hiff]
    constructor
    · rintro ⟨⟨line, hline, hstrip⟩, hne⟩
      exact ⟨hne, line, hline, hstrip⟩
    · rintro ⟨hne, line, hline, hstrip⟩
      exact ⟨⟨line, hline, hstrip⟩, hne⟩

/-- C9 witness: a concrete absent file and a concrete present file. -/
theorem c9_witness :
    ((fun _ : Str => (none : Option Str)) "seen.txt".data = none ∧
      load_seen (some "seen.txt".data) (fun _ => none) = Except.ok [])
    ∧ ((fun _ : Str => some " 1 Oak Ave \n\n2 Elm St".data) "seen.txt".data =
        some " 1 Oak Ave \n\n2 Elm St".data ∧
      load_seen (some "seen.txt".data)
          (fun _ => some " 1 Oak Ave \n\n2 Elm St".data) =
        Except.ok [ "1 Oak Ave".data, "2 Elm St".data ]) := by
  constructor
  · exact ⟨rfl, c9_load_seen_total.2.1 "seen.txt".data (fun _ => none) rfl⟩
  · refine ⟨rfl, ?_⟩
    have h := c9_load_seen_total.2.2.1 "seen.txt".data
      (fun _ => some " 1 Oak Ave \n\n2 Elm St".data)
      " 1 Oak Ave \n\n2 Elm St".data rfl
    have h2 : seenFromText " 1 Oak Ave \n\n2 Elm St".data =
        [ "1 Oak Ave".data, "2 Elm St".data ] := by decide
    rw [h, h2]

/-- The word-character flag after scanning `u`, starting from flag `pw`:
`isWordChar` of the last character of `u`, or `pw` when `u` is empty. -/
def prevFlag (pw : Bool) : Str → Bool
  | [] => pw
  | c :: u => prevFlag (isWordChar c) u

theorem prevFlag_cons (pw : Bool) (c : Char) (u : Str) :
    prevFlag pw (c :: u) = prevFlag (isWordChar c) u := rfl

/-- If the pattern is found somewhere in `s`, it is found in `u ++ s`
(provided the word-flag entering `s` is tracked correctly). -/
theorem poBoxSearchAux_append (u : Str) (pw : Bool) (s : Str)
    (h : poBoxSearchAux (prevFlag pw u) s = true) :
    poBoxSearchAux pw (u ++ s) = true := by
  induction u generalizing pw with
  | nil => exact h
  | cons c u' ih =>
    rw [prevFlag_cons] at h
    show poBoxSearchAux pw (c :: (u' ++ s)) = true
    unfold poBoxSearchAux
    rw [Bool.or_eq_true]
    exact Or.inr (ih (isWordChar c) h)

/-- If the alternation matches at the start of `v ++ w`, consuming exactly
`v`, and both boundaries are word boundaries, the search succeeds. -/
theorem poBoxSearchAux_head (pw : Bool) (v w : Str) (hpw : pw = false)
    (hm : matchPoBoxAlt (v ++ w) = some w) (hv : v ≠ [])
    (hw : ∀ d t, w = d :: t → isWordChar d = false) :
    poBoxSearchAux pw (v ++ w) = true := by
  cases v with
  | nil => exact absurd rfl hv
  | cons c v' =>
    show poBoxSearchAux pw (c :: (v' ++ w)) = true
    unfold poBoxSearchAux
    rw [Bool.or_eq_true]
    left
    rw [Bool.and_eq_true, hpw]
    refine ⟨rfl, ?_⟩
    have hm' : matchPoBoxAlt (c :: (v' ++ w)) = some w := hm
    rw [hm']
    cases w with
    | nil => rfl
    | cons d t =>
      have := hw d t rfl
      simp [this]

/-- C10: the PO-Box test is a substring (occurrence) test: whenever the
pattern matches a word-bounded segment anywhere inside a string, the whole
string is classified as a PO Box, a single-entry detail mapping carrying
such a value cannot satisfy `_has_valid_address`, and in particular
"123 Main St, P.O. Box 9" is classified invalid. -/
theorem c10_po_box_substring :
    (∀ u v w : Str, prevFlag false u = false →
      matchPoBoxAlt (v ++ w) = some w → v ≠ [] →
      (∀ d t, w = d :: t → isWordChar d = false) →
      _is_po_box_or_empty (u ++ (v ++ w)) = true)
    ∧ (∀ (k t : Str), _is_po_box_or_empty t = true →
        _has_valid_address [(k, t)] = false)
    ∧ _is_po_box_or_empty "123 Main St, P.O. Box 9".data = true
    ∧ _has_valid_address
        [("Principal Address".data, "123 Main St, P.O. Box 9".data)] = false := by
  refine ⟨fun u v w hu hm hv hw => ?_, fun k t h => ?_, by decide, by decide⟩
  · have hsearch : poBoxSearch (u ++ (v ++ w)) = true := by
      refine poBoxSearchAux_append u false (v ++ w) ?_
      rw [hu]
      exact poBoxSearchAux_head false v w rfl hm hv hw
    unfold _is_po_box_or_empty
    split
    · rfl
    · exact hsearch
  · unfold _has_valid_address
    simp [h]

/-- C10 witness: the general part applied at
`"123 Main St, " ++ "P.O. Box" ++ " 9"`, and the single-entry part at that
concrete value. -/
theorem c10_witness :
    (prevFlag false "123 Main St, ".data = false ∧
      matchPoBoxAlt ("P.O. Box".data ++ " 9".data) = some " 9".data ∧
      "P.O. Box".data ≠ ([] : Str) ∧
      _is_po_box_or_empty
        ("123 Main St, ".data ++ ("P.O. Box".data ++ " 9".data)) = true)
    ∧ (_is_po_box_or_empty "PO Box 5".data = true ∧
      _has_valid_address [("Principal Address".data, "PO Box 5".data)] = false) := by
  refine ⟨⟨by decide, by decide, by decide, ?_⟩, ⟨by decide, ?_⟩⟩
  · exact c10_po_box_substring.1 "123 Main St, ".data "P.O. Box".data " 9".data
      (by decide) (by decide) (by decide)
      (fun d t ht => by
        injection ht with h1 h2
        rw [← h1]
        decide)
  · exact c10_po_box_substring.2.1 "Principal Address".data "PO Box 5".data
      (by decide)

/-- Every word produced by `pySplitAux` (from a whitespace-free accumulator)
is non-empty and whitespace-free. -/
theorem pySplitAux_good (s : Str) : ∀ (cur : Str),
    (∀ c ∈ cur, isPySpace c = false) →
    ∀ w ∈ pySplitAux s cur, w ≠ [] ∧ ∀ c ∈ w, isPySpace c = false := by
  induction s with
  | nil =>
    intro cur hcur w hw
    unfold pySplitAux at hw
    split at hw
    · simp at hw
    · rename_i hne
      rw [List.mem_singleton] at hw
      subst hw
      exact ⟨by simpa using hne, fun c hc => hcur c (List.mem_reverse.mp hc)⟩
  | cons c cs ih =>
    intro cur hcur w hw
    unfold pySplitAux at hw
    split at hw
    · split at hw
      · exact ih [] (by simp) w hw
      · rename_i hne
        rcases List.mem_cons.mp hw with hw | hw
        · subst hw
          exact ⟨by simpa using hne, fun c2 hc2 => hcur c2 (List.mem_reverse.mp hc2)⟩
        · exact ih [] (by simp) w hw
    · rename_i hsp
      refine ih (c :: cur) ?_ w hw
      intro c2 hc2
      rcases List.mem_cons.mp hc2 with h | h
      · subst h
        simpa using hsp
      · exact hcur c2 h

/-- Lemma: `pySplitAux` moves a whitespace-free word wholly into the accumulator. -/
theorem pySplitAux_word (w : Str) : ∀ (rest cur : Str),
    (∀ c ∈ w, isPySpace c = false) →
    pySplitAux (w ++ rest) cur = pySplitAux rest (w.reverse ++ cur) := by
  induction w with
  | nil => intro rest cur _; simp
  | cons c w' ih =>
    intro rest cur h
    have hc : isPySpace c = false := h c (List.mem_cons_self c w')
    have hstep : pySplitAux ((c :: w') ++ rest) cur =
        pySplitAux (w' ++ rest) (c :: cur) := by
      simp [List.cons_append, pySplitAux, hc]
    rw [hstep, ih rest (c :: cur) (fun d hd => h d (List.mem_cons_of_mem c hd))]
    simp [List.append_assoc]

theorem joinWords_ne_nil (w : Str) (ws : List Str) (h : w ≠ []) :
    joinWords (w :: ws) ≠ [] := by
  cases ws <;> simp [joinWords, h]

/-- Splitting the space-joined list of non-empty whitespace-free words
recovers the words. -/
theorem pySplit_joinWords : ∀ (ws : List Str),
    (∀ w ∈ ws, w ≠ [] ∧ ∀ c ∈ w, isPySpace c = false) →
    pySplit (joinWords ws) = ws := by
  intro ws
  induction ws with
  | nil => intro _; rfl
  | cons w tl ih =>
    intro h
    have hw := h w (List.mem_cons_self w tl)
    cases tl with
    | nil =>
      show pySplitAux (joinWords [w]) [] = [w]
      rw [show joinWords [w] = w ++ [] by simp [joinWords],
        pySplitAux_word w [] [] hw.2]
      unfold pySplitAux
      simp [hw.1]
    | cons v tl' =>
      show pySplitAux (joinWords (w :: v :: tl')) [] = w :: v :: tl'
      rw [show joinWords (w :: v :: tl') = w ++ ' ' :: joinWords (v :: tl')
          from rfl,
        pySplitAux_word w _ [] hw.2]
      unfold pySplitAux
      rw [if_pos (show isPySpace ' ' = true from rfl)]
      rw [if_neg (by simpa using hw.1)]
      simp only [List.append_nil, List.reverse_reverse]
      exact congrArg (w :: ·) (ih (fun w2 hw2 => h w2 (List.mem_cons_of_mem w hw2)))

/-- Every character of a space-join is a space or a character of a word. -/
theorem joinWords_mem : ∀ (ws : List Str) (c : Char), c ∈ joinWords ws →
    c = ' ' ∨ ∃ w, w ∈ ws ∧ c ∈ w := by
  intro ws
  induction ws with
  | nil => intro c hc; simp [joinWords] at hc
  | cons w tl ih =>
    intro c hc
    cases tl with
    | nil =>
      right
      exact ⟨w, List.mem_cons_self w [], by simpa [joinWords] using hc⟩
    | cons v tl' =>
      rw [show joinWords (w :: v :: tl') = w ++ ' ' :: joinWords (v :: tl')
          from rfl, List.mem_append] at hc
      rcases hc with hc | hc
      · right
        exact ⟨w, List.mem_cons_self w (v :: tl'), hc⟩
      · rcases List.mem_cons.mp hc with hc | hc
        · left
          exact hc
        · rcases ih c hc with hsp | ⟨w2, hw2, hcw⟩
          · left
            exact hsp
          · right
            exact ⟨w2, List.mem_cons_of_mem w hw2, hcw⟩

theorem pyReplaceNlSp_eq_self : ∀ (s : Str), (∀ c ∈ s, c ≠ '\n') →
    pyReplaceNlSp s = s := by
  intro s
  induction s with
  | nil => intro _; rfl
  | cons c t ih =>
    intro h
    show (if c = '\n' then ' ' else c) :: pyReplaceNlSp t = c :: t
    rw [if_neg (h c (List.mem_cons_self c t)),
      ih (fun d hd => h d (List.mem_cons_of_mem c hd))]

/-- A space-join of non-empty whitespace-free words starts with a non-space
character (or is empty), so a leading `dropWhile` is the identity. -/
theorem dropWhile_joinWords (ws : List Str)
    (h : ∀ w ∈ ws, w ≠ [] ∧ ∀ c ∈ w, isPySpace c = false) :
    (joinWords ws).dropWhile (fun c => isPySpace c) = joinWords ws := by
  cases ws with
  | nil => rfl
  | cons w tl =>
    obtain ⟨hne, hch⟩ := h w (List.mem_cons_self w tl)
    cases w with
    | nil => exact absurd rfl hne
    | cons c w' =>
      have hc : isPySpace c = false := hch c (List.mem_cons_self c w')
      cases tl with
      | nil =>
        simp [joinWords, List.dropWhile_cons, hc]
      | cons v tl' =>
        simp [joinWords, List.cons_append, List.dropWhile_cons, hc]

/-- The join also ends with a non-space character, so the trailing
`dropWhile` on the reversal is the identity too. -/
theorem dropWhile_reverse_joinWords : ∀ (ws : List Str),
    (∀ w ∈ ws, w ≠ [] ∧ ∀ c ∈ w, isPySpace c = false) →
    (joinWords ws).reverse.dropWhile (fun c => isPySpace c) =
      (joinWords ws).reverse := by
  intro ws
  induction ws with
  | nil => intro _; rfl
  | cons w tl ih =>
    intro h
    obtain ⟨hne, hch⟩ := h w (List.mem_cons_self w tl)
    cases tl with
    | nil =>
      show w.reverse.dropWhile _ = w.reverse
      cases hr : w.reverse with
      | nil => rfl
      | cons d t =>
        have hd : d ∈ w := by
          rw [← List.mem_reverse, hr]
          exact List.mem_cons_self d t
        simp [List.dropWhile_cons, hch d hd]
    | cons v tl' =>
      have hJ := ih (fun w2 hw2 => h w2 (List.mem_cons_of_mem w hw2))
      have hne2 : joinWords (v :: tl') ≠ [] :=
        joinWords_ne_nil v tl' (h v (by simp)).1
      cases hr : (joinWords (v :: tl')).reverse with
      | nil => exact absurd (by simpa using hr) hne2
      | cons d t =>
        rw [hr] at hJ
        have hd : isPySpace d = false := by
          by_cases hd' : isPySpace d = true
          · exfalso
            rw [List.dropWhile_cons] at hJ
            rw [if_pos hd'] at hJ
            have hlen := (List.dropWhile_sublist
              (fun c => isPySpace c) (l := t)).length_le
            rw [hJ] at hlen
            simp at hlen
          · simpa using hd'
        simp [joinWords, List.reverse_append, List.reverse_cons, hr,
          List.append_assoc, List.cons_append, List.dropWhile_cons, hd]

/-- Stripping is the identity on a space-join of non-empty whitespace-free
words. -/
theorem pyStrip_joinWords (ws : List Str)
    (h : ∀ w ∈ ws, w ≠ [] ∧ ∀ c ∈ w, isPySpace c = false) :
    pyStrip (joinWords ws) = joinWords ws := by
  unfold pyStrip
  rw [dropWhile_joinWords ws h, dropWhile_reverse_joinWords ws h,
    List.reverse_reverse]

/-- Replacing `\n` by a space does not change the whitespace tokenization. -/
theorem pySplitAux_replace : ∀ (s cur : Str),
    pySplitAux (pyReplaceNlSp s) cur = pySplitAux s cur := by
  intro s
  induction s with
  | nil => intro _; rfl
  | cons c t ih =>
    intro cur
    show pySplitAux ((if c = '\n' then ' ' else c) :: pyReplaceNlSp t) cur = _
    by_cases hc : c = '\n'
    · subst hc
      rw [if_pos rfl]
      show pySplitAux (' ' :: pyReplaceNlSp t) cur =
        pySplitAux ('\n' :: t) cur
      unfold pySplitAux
      rw [if_pos (show isPySpace ' ' = true from rfl),
        if_pos (show isPySpace '\n' = true from rfl)]
      split
      · exact ih []
      · rw [ih []]
    · rw [if_neg hc]
      unfold pySplitAux
      cases hsp : isPySpace c with
      | false =>
        simp only [Bool.false_eq_true, if_false]
        exact ih (c :: cur)
      | true =>
        simp only [if_pos]
        split
        · exact ih []
        · rw [ih []]

/-- The normalized form is the space-join of the whitespace tokens: the
final `strip` and the initial newline replacement are no-ops on it. -/
theorem normalize_eq_joinWords (x : Str) :
    _normalize_address x = joinWords (pySplit x) := by
  unfold _normalize_address pySplit
  rw [pySplitAux_replace x []]
  exact pyStrip_joinWords (pySplitAux x []) (pySplitAux_good x [] (by simp))

/-- C6: `_normalize_address` is idempotent, depends only on the whitespace
tokenization (so strings differing only in line breaks and whitespace-run
lengths normalize identically), and in particular
`normalize "A\n  B" = normalize "A B"`. -/
theorem c6_normalize_idempotent :
    (∀ x : Str, _normalize_address (_normalize_address x) = _normalize_address x)
    ∧ (∀ x y : Str, pySplit x = pySplit y →
        _normalize_address x = _normalize_address y)
    ∧ _normalize_address "A\n  B".data = _normalize_address "A B".data := by
  refine ⟨fun x => ?_, fun x y h => ?_, by decide⟩
  · have hg : ∀ w ∈ pySplit x, w ≠ [] ∧ ∀ c ∈ w, isPySpace c = false :=
      pySplitAux_good x [] (by simp)
    rw [normalize_eq_joinWords x,
      normalize_eq_joinWords (joinWords (pySplit x)),
      pySplit_joinWords (pySplit x) hg]
  · rw [normalize_eq_joinWords x, normalize_eq_joinWords y, h]

/-- C6 witness: the tokenization hypothesis discharged on the concrete pair
`"A\n  B"` / `"A B"`. -/
theorem c6_witness :
    pySplit "A\n  B".data = pySplit "A B".data ∧
    _normalize_address "A\n  B".data = _normalize_address "A B".data :=
  ⟨by decide, c6_normalize_idempotent.2.1 "A\n  B".data "A B".data (by decide)⟩

/-- Invariants of the per-row loop: the seen set only grows, every produced
record's normalized Principal Address is in the final seen set, the
normalized addresses of the produced records are distinct and absent from
the initial seen set `seen0`, every produced record passed the address
gates, and the cap bounds the record count. -/
theorem processRows_inv (detailSite : Str → List (Str × Str)) (mr : Option Nat)
    (seen0 : List Str) :
    ∀ (rows : List ResultRow) (results : List DetailRecord) (seen : List Str)
      (res' : List DetailRecord) (seen' : List Str),
    processRows detailSite mr rows results seen = (res', seen') →
    (∀ x ∈ seen0, x ∈ seen) →
    (∀ r ∈ results, normOf r ∈ seen) →
    (results.map normOf).Nodup →
    (∀ r ∈ results, normOf r ∉ seen0) →
    (∀ r ∈ results, _has_valid_address r.details = true ∧
      pyStrip (dictGet r.details principalAddressKey) ≠ []) →
    (∀ m, mr = some m → results.length ≤ m) →
    (∀ x ∈ seen0, x ∈ seen') ∧
    (∀ r ∈ res', normOf r ∈ seen') ∧
    (res'.map normOf).Nodup ∧
    (∀ r ∈ res', normOf r ∉ seen0) ∧
    (∀ r ∈ res', _has_valid_address r.details = true ∧
      pyStrip (dictGet r.details principalAddressKey) ≠ []) ∧
    (∀ m, mr = some m → res'.length ≤ m) := by
  intro rows
  induction rows with
  | nil =>
    intro results seen res' seen' heq h1 h2 h3 h4 h5 h6
    simp only [processRows] at heq
    injection heq with e1 e2
    subst e1
    subst e2
    exact ⟨h1, h2, h3, h4, h5, h6⟩
  | cons row rest ih =>
    intro results seen res' seen' heq h1 h2 h3 h4 h5 h6
    simp only [processRows] at heq
    by_cases hcap : capReached mr results.length = true
    · rw [if_pos hcap] at heq
      injection heq with e1 e2
      subst e1
      subst e2
      exact ⟨h1, h2, h3, h4, h5, h6⟩
    · rw [if_neg hcap] at heq
      by_cases hval :
          _has_valid_address (detailSite (detailUrlOf row.detail_path)) = true
      · rw [if_neg (by simp [hval])] at heq
        by_cases haddr : (pyStrip (dictGet
            (detailSite (detailUrlOf row.detail_path))
            principalAddressKey)).isEmpty = true
        · rw [if_pos haddr] at heq
          exact ih results seen res' seen' heq h1 h2 h3 h4 h5 h6
        · rw [if_neg haddr] at heq
          by_cases hseen : _normalize_address (pyStrip (dictGet
              (detailSite (detailUrlOf row.detail_path))
              principalAddressKey)) ∈ seen
          · rw [if_pos hseen] at heq
            exact ih results seen res' seen' heq h1 h2 h3 h4 h5 h6
          · rw [if_neg hseen] at heq
            refine ih _ _ res' seen' heq ?_ ?_ ?_ ?_ ?_ ?_
            · exact fun x hx => List.mem_cons_of_mem _ (h1 x hx)
            · intro r hr
              rcases List.mem_append.mp hr with hr | hr
              · exact List.mem_cons_of_mem _ (h2 r hr)
              · rw [List.mem_singleton] at hr
                subst hr
                exact List.mem_cons_self _ _
            · rw [List.map_append, List.nodup_append]
              refine ⟨h3, by simp, ?_⟩
              intro a ha hb
              simp only [List.map_cons, List.map_nil, List.mem_singleton] at hb
              subst hb
              rcases List.mem_map.mp ha with ⟨r, hr, he⟩
              have := h2 r hr
              rw [he] at this
              exact hseen this
            · intro r hr
              rcases List.mem_append.mp hr with hr | hr
              · exact h4 r hr
              · rw [List.mem_singleton] at hr
                subst hr
                exact fun hx => hseen (h1 _ hx)
            · intro r hr
              rcases List.mem_append.mp hr with hr | hr
              · exact h5 r hr
              · rw [List.mem_singleton] at hr
                subst hr
                refine ⟨hval, ?_⟩
                intro hnil
                rw [show (pyStrip (dictGet
                    (detailSite (detailUrlOf row.detail_path))
                    principalAddressKey)) = [] from hnil] at haddr
                exact haddr rfl
            · intro m hm
              subst hm
              rw [List.length_append]
              have : ¬ (m ≤ results.length) := by
                intro hle
                exact hcap (by simp [capReached, hle])
              simp only [List.length_cons, List.length_nil]
              omega
      · rw [if_pos (by simp [Bool.not_eq_true] at hval; simp [hval])] at heq
        exact ih results seen res' seen' heq h1 h2 h3 h4 h5 h6

/-- The per-row invariants are preserved across listing pages by the
pagination loop. -/
theorem fetchLoop_inv (site : Str → ListingPage)
    (detailSite : Str → List (Str × Str)) (mr : Option Nat) (seen0 : List Str) :
    ∀ (fuel : Nat) (urlOpt : Option Str) (results : List DetailRecord)
      (seen : List Str) (res' : List DetailRecord) (seen' : List Str),
    fetchLoop site detailSite mr fuel urlOpt results seen = some (res', seen') →
    (∀ x ∈ seen0, x ∈ seen) →
    (∀ r ∈ results, normOf r ∈ seen) →
    (results.map normOf).Nodup →
    (∀ r ∈ results, normOf r ∉ seen0) →
    (∀ r ∈ results, _has_valid_address r.details = true ∧
      pyStrip (dictGet r.details principalAddressKey) ≠ []) →
    (∀ m, mr = some m → results.length ≤ m) →
    (res'.map normOf).Nodup ∧
    (∀ r ∈ res', normOf r ∉ seen0) ∧
    (∀ r ∈ res', _has_valid_address r.details = true ∧
      pyStrip (dictGet r.details principalAddressKey) ≠ []) ∧
    (∀ m, mr = some m → res'.length ≤ m) := by
  intro fuel
  induction fuel with
  | zero =>
    intro urlOpt results seen res' seen' heq h1 h2 h3 h4 h5 h6
    cases urlOpt with
    | none =>
      simp only [fetchLoop] at heq
      injection heq with h
      injection h with e1 e2
      subst e1
      exact ⟨h3, h4, h5, h6⟩
    | some url =>
      simp only [fetchLoop] at heq
      exact absurd heq (by simp)
  | succ fuel ih =>
    intro urlOpt results seen res' seen' heq h1 h2 h3 h4 h5 h6
    cases urlOpt with
    | none =>
      simp only [fetchLoop] at heq
      injection heq with h
      injection h with e1 e2
      subst e1
      exact ⟨h3, h4, h5, h6⟩
    | some url =>
      simp only [fetchLoop] at heq
      rcases hp : processRows detailSite mr (site url).rows results seen
        with ⟨a, b⟩
      rw [hp] at heq
      obtain ⟨g1, g2, g3, g4, g5, g6⟩ := processRows_inv detailSite mr seen0
        (site url).rows results seen a b hp h1 h2 h3 h4 h5 h6
      by_cases hcap : capReached mr a.length = true
      · rw [if_pos hcap] at heq
        injection heq with h
        injection h with e1 e2
        subst e1
        exact ⟨g3, g4, g5, g6⟩
      · rw [if_neg hcap] at heq
        exact ih _ a b res' seen' heq g1 g2 g3 g4 g5 g6

/-- C2: with `max_results = N`, a completed run returns at most `N` records,
their normalized Principal Addresses are pairwise distinct, and none of them
was in the seen set loaded from `seen_path` before the run. -/
theorem c2_cap_and_dedup (site : Str → ListingPage)
    (detailSite : Str → List (Str × Str)) (search_url : Str) (N : Nat)
    (seen_path : Option Str) (fs : Str → Option Str) (fuel : Nat)
    (res' : List DetailRecord) (seen' : List Str)
    (heq : fetch_sunbiz_data site detailSite search_url (some N) seen_path fs
      fuel = some (res', seen')) :
    res'.length ≤ N ∧ (res'.map normOf).Nodup ∧
      ∀ r ∈ res', normOf r ∉ load_seen_ok seen_path fs := by
  unfold fetch_sunbiz_data at heq
  obtain ⟨g3, g4, g5, g6⟩ := fetchLoop_inv site detailSite (some N)
    (load_seen_ok seen_path fs) fuel (some search_url) []
    (load_seen_ok seen_path fs) res' seen' heq (fun x hx => hx) (by simp)
    (by simp) (by simp) (by simp) (fun m _ => by simp)
  exact ⟨g6 N rfl, g3, g4⟩


/-- C2 witness: a one-page, one-row site with a valid Principal Address,
`max_results = 1`, no seen file. -/
theorem c2_witness :
    fetch_sunbiz_data
        (fun _ => ⟨[⟨"Acme Plumbing".data, "P01".data, "Active".data,
          "/entity/1".data⟩], none⟩)
        (fun _ => [("Principal Address".data, "123 Main St".data)])
        "start".data (some 1) none (fun _ => none) 1
      = some ([⟨"Acme Plumbing".data, "P01".data, "Active".data,
          "https://search.sunbiz.org/entity/1".data,
          [("Principal Address".data, "123 Main St".data)]⟩],
          ["123 Main St".data])
    ∧ ([⟨"Acme Plumbing".data, "P01".data, "Active".data,
        "https://search.sunbiz.org/entity/1".data,
        [("Principal Address".data, "123 Main St".data)]⟩] :
          List DetailRecord).length ≤ 1
    ∧ (([⟨"Acme Plumbing".data, "P01".data, "Active".data,
        "https://search.sunbiz.org/entity/1".data,
        [("Principal Address".data, "123 Main St".data)]⟩] :
          List DetailRecord).map normOf).Nodup
    ∧ ∀ r ∈ ([⟨"Acme Plumbing".data, "P01".data, "Active".data,
        "https://search.sunbiz.org/entity/1".data,
        [("Principal Address".data, "123 Main St".data)]⟩] :
          List DetailRecord),
        normOf r ∉ load_seen_ok none (fun _ => none) := by
  have heq :
      fetch_sunbiz_data
        (fun _ => ⟨[⟨"Acme Plumbing".data, "P01".data, "Active".data,
          "/entity/1".data⟩], none⟩)
        (fun _ => [("Principal Address".data, "123 Main St".data)])
        "start".data (some 1) none (fun _ => none) 1
      = some ([⟨"Acme Plumbing".data, "P01".data, "Active".data,
          "https://search.sunbiz.org/entity/1".data,
          [("Principal Address".data, "123 Main St".data)]⟩],
          ["123 Main St".data]) := by decide
  obtain ⟨k1, k2, k3⟩ := c2_cap_and_dedup _ _ "start".data 1 none
    (fun _ => none) 1 _ _ heq
  exact ⟨heq, k1, k2, k3⟩

/-- C1 counterexample: a row whose details pass `_has_valid_address` via a
valid "Mailing Address" is accepted even though its "Principal Address" is a
PO Box, so the claimed non-PO-Box property of the accepted record's
Principal Address is false on this run. -/
theorem c1_counterexample :
    fetch_sunbiz_data
        (fun _ => ⟨[⟨"Acme".data, "D1".data, "Active".data, "/e1".data⟩],
          none⟩)
        (fun _ => [("Mailing Address".data, "123 Main St".data),
          ("Principal Address".data, "PO Box 5".data)])
        "start".data none none (fun _ => none) 1
      = some ([⟨"Acme".data, "D1".data, "Active".data,
          "https://search.sunbiz.org/e1".data,
          [("Mailing Address".data, "123 Main St".data),
            ("Principal Address".data, "PO Box 5".data)]⟩],
          ["PO Box 5".data])
    ∧ _is_po_box_or_empty (dictGet
        [("Mailing Address".data, "123 Main St".data),
          ("Principal Address".data, "PO Box 5".data)]
        principalAddressKey) = true :=
  ⟨by decide, by decide⟩

/-- C1 (amended): every record returned by a run has details passing
`_has_valid_address` (some address-named key with a non-empty non-PO-Box
value), a non-empty stripped "Principal Address" value, and a normalized
Principal Address that is not in the loaded seen set and not produced twice
within the run; the Principal Address value itself may still be a PO Box
when a different address key supplied the valid address. -/
theorem c1_accepted_records (site : Str → ListingPage)
    (detailSite : Str → List (Str × Str)) (search_url : Str)
    (max_results : Option Nat) (seen_path : Option Str)
    (fs : Str → Option Str) (fuel : Nat)
    (res' : List DetailRecord) (seen' : List Str)
    (heq : fetch_sunbiz_data site detailSite search_url max_results seen_path
      fs fuel = some (res', seen')) :
    (∀ r ∈ res', _has_valid_address r.details = true ∧
      pyStrip (dictGet r.details principalAddressKey) ≠ [] ∧
      normOf r ∉ load_seen_ok seen_path fs) ∧
    (res'.map normOf).Nodup := by
  unfold fetch_sunbiz_data at heq
  obtain ⟨g3, g4, g5, g6⟩ := fetchLoop_inv site detailSite max_results
    (load_seen_ok seen_path fs) fuel (some search_url) []
    (load_seen_ok seen_path fs) res' seen' heq (fun x hx => hx) (by simp)
    (by simp) (by simp) (by simp) (fun m _ => by simp)
  exact ⟨fun r hr => ⟨(g5 r hr).1, (g5 r hr).2, g4 r hr⟩, g3⟩

/-- C1 witness: the amended invariant evaluated on the counterexample run. -/
theorem c1_witness :
    fetch_sunbiz_data
        (fun _ => ⟨[⟨"Acme".data, "D1".data, "Active".data, "/e1".data⟩],
          none⟩)
        (fun _ => [("Mailing Address".data, "123 Main St".data),
          ("Principal Address".data, "PO Box 5".data)])
        "start".data none none (fun _ => none) 1
      = some ([⟨"Acme".data, "D1".data, "Active".data,
          "https://search.sunbiz.org/e1".data,
          [("Mailing Address".data, "123 Main St".data),
            ("Principal Address".data, "PO Box 5".data)]⟩],
          ["PO Box 5".data])
    ∧ (∀ r ∈ ([⟨"Acme".data, "D1".data, "Active".data,
          "https://search.sunbiz.org/e1".data,
          [("Mailing Address".data, "123 Main St".data),
            ("Principal Address".data, "PO Box 5".data)]⟩] :
            List DetailRecord),
        _has_valid_address r.details = true ∧
        pyStrip (dictGet r.details principalAddressKey) ≠ [] ∧
        normOf r ∉ load_seen_ok none (fun _ => none)) := by
  have heq :
      fetch_sunbiz_data
        (fun _ => ⟨[⟨"Acme".data, "D1".data, "Active".data, "/e1".data⟩],
          none⟩)
        (fun _ => [("Mailing Address".data, "123 Main St".data),
          ("Principal Address".data, "PO Box 5".data)])
        "start".data none none (fun _ => none) 1
      = some ([⟨"Acme".data, "D1".data, "Active".data,
          "https://search.sunbiz.org/e1".data,
          [("Mailing Address".data, "123 Main St".data),
            ("Principal Address".data, "PO Box 5".data)]⟩],
          ["PO Box 5".data]) := by decide
  exact ⟨heq, (c1_accepted_records _ _ "start".data none none
    (fun _ => none) 1 _ _ heq).1⟩

/-- C3: along a finite chain of "Next List" links ending in a page without
one, the pagination loop returns (for any `max_results`, including none)
once given fuel equal to the chain length. -/
theorem c3_pagination_terminates (site : Str → ListingPage)
    (detailSite : Str → List (Str × Str)) (max_results : Option Nat)
    (results : List DetailRecord) (seen : List Str) :
    ∀ (us : List Str) (u : Str), nextChain site (u :: us) →
    (fetchLoop site detailSite max_results (us.length + 1) (some u)
      results seen).isSome = true := by
  intro us
  induction us generalizing results seen with
  | nil =>
    intro u hchain
    simp only [nextChain] at hchain
    simp only [List.length_nil, fetchLoop]
    split
    · rfl
    · rw [hchain]
      rfl
  | cons v rest ih =>
    intro u hchain
    simp only [nextChain] at hchain
    obtain ⟨hnext, hchain'⟩ := hchain
    simp only [List.length_cons, fetchLoop]
    split
    · rfl
    · rw [hnext]
      exact ih _ _ v hchain'

/-- C3 witness: a concrete two-page chain. -/
theorem c3_witness :
    nextChain
      (fun u => if u = "u1".data then
          (⟨[], some "u2".data⟩ : ListingPage)
        else ⟨[], none⟩)
      ["u1".data, "u2".data]
    ∧ (fetchLoop
        (fun u => if u = "u1".data then
            (⟨[], some "u2".data⟩ : ListingPage)
          else ⟨[], none⟩)
        (fun _ => []) none (["u2".data].length + 1) (some "u1".data)
        [] []).isSome = true := by
  have hchain : nextChain
      (fun u => if u = "u1".data then
          (⟨[], some "u2".data⟩ : ListingPage)
        else ⟨[], none⟩)
      ["u1".data, "u2".data] := by
    simp only [nextChain]
    exact ⟨by decide, by decide⟩
  exact ⟨hchain, c3_pagination_terminates _ (fun _ => []) none [] []
    ["u2".data] "u1".data hchain⟩

/-- C4: a job whose pipeline invocation raises produces the generic failure
notice for its requester (its exception is absorbed inside `run_fetch_sync`,
so the worker reaches the notice and continues), and the jobs queued after
it are processed exactly as they would have been. -/
theorem c4_failure_isolation (outcome : Job → FetchOutcome)
    (pre post : List Job) (j : Job) (h : outcome j = FetchOutcome.raises) :
    queue_worker outcome (pre ++ j :: post) =
      queue_worker outcome pre ++
        ([BotEvent.procStart j.chat_id, BotEvent.pipeStart j.chat_id,
          BotEvent.pipeEnd j.chat_id, BotEvent.noResults j.chat_id] ++
         queue_worker outcome post) := by
  rw [queue_worker_append]
  have hj : processJob outcome j =
      [BotEvent.procStart j.chat_id, BotEvent.pipeStart j.chat_id,
        BotEvent.pipeEnd j.chat_id, BotEvent.noResults j.chat_id] := by
    simp [processJob, run_fetch_sync, h]
  show queue_worker outcome pre ++
    (processJob outcome j ++ queue_worker outcome post) = _
  rw [hj]

/-- C4 witness: a two-job queue whose first job raises; the second job is
still processed and delivered. -/
theorem c4_witness :
    (fun jb : Job => if jb.chat_id = 1 then FetchOutcome.raises
        else FetchOutcome.returns [⟨[], [], [], [], []⟩] true)
      (⟨1, "water".data, 10⟩ : Job) = FetchOutcome.raises
    ∧ queue_worker
        (fun jb : Job => if jb.chat_id = 1 then FetchOutcome.raises
          else FetchOutcome.returns [⟨[], [], [], [], []⟩] true)
        ([] ++ (⟨1, "water".data, 10⟩ : Job) :: [⟨2, "plumber".data, 5⟩]) =
      queue_worker
        (fun jb : Job => if jb.chat_id = 1 then FetchOutcome.raises
          else FetchOutcome.returns [⟨[], [], [], [], []⟩] true) [] ++
        ([BotEvent.procStart 1, BotEvent.pipeStart 1, BotEvent.pipeEnd 1,
          BotEvent.noResults 1] ++
         queue_worker
          (fun jb : Job => if jb.chat_id = 1 then FetchOutcome.raises
            else FetchOutcome.returns [⟨[], [], [], [], []⟩] true)
          [⟨2, "plumber".data, 5⟩]) :=
  ⟨rfl, c4_failure_isolation _ [] [⟨2, "plumber".data, 5⟩]
    ⟨1, "water".data, 10⟩ rfl⟩

/-- One job's event segment folds the in-flight counter from zero back to
zero, raising the running maximum to at most 1. -/
theorem inflight_processJob (outcome : Job → FetchOutcome) (j : Job) (m : Nat) :
    List.foldl inflightStep (0, m) (processJob outcome j) = (0, max m 1) := by
  rcases hr : run_fetch_sync (outcome j) with _ | ex
  · simp [processJob, hr, inflightStep]
  · rcases ex with _ | _ <;> simp [processJob, hr, inflightStep]

theorem inflight_worker (outcome : Job → FetchOutcome) :
    ∀ (jobs : List Job) (m : Nat),
    (List.foldl inflightStep (0, m) (queue_worker outcome jobs)).2 ≤ max m 1 := by
  intro jobs
  induction jobs with
  | nil =>
    intro m
    exact le_max_left m 1
  | cons j rest ih =>
    intro m
    show (List.foldl inflightStep (0, m)
      (processJob outcome j ++ queue_worker outcome rest)).2 ≤ max m 1
    rw [List.foldl_append, inflight_processJob]
    calc (List.foldl inflightStep (0, max m 1) (queue_worker outcome rest)).2
        ≤ max (max m 1) 1 := ih (max m 1)
      _ = max m 1 := by simp [max_assoc]

/-- C5: the worker serializes jobs in FIFO order — between two jobs enqueued
in order, the earlier one's whole event segment (ending in its delivery or
failure notice) precedes the later one's segment (which starts with its
start notice and pipeline start) — and at most one pipeline invocation is in
flight at any point of the trace. -/
theorem c5_fifo_single_flight :
    (∀ (outcome : Job → FetchOutcome) (pre mid post : List Job) (u1 u2 : Job),
      queue_worker outcome (pre ++ u1 :: (mid ++ u2 :: post)) =
        queue_worker outcome pre ++ processJob outcome u1 ++
          (queue_worker outcome mid ++
            (processJob outcome u2 ++ queue_worker outcome post)))
    ∧ (∀ (outcome : Job → FetchOutcome) (j : Job), ∃ e,
        processJob outcome j =
          [BotEvent.procStart j.chat_id, BotEvent.pipeStart j.chat_id,
           BotEvent.pipeEnd j.chat_id, e] ∧
          (e = BotEvent.delivered j.chat_id ∨ e = BotEvent.noResults j.chat_id))
    ∧ (∀ (outcome : Job → FetchOutcome) (jobs : List Job),
        maxInFlight (queue_worker outcome jobs) ≤ 1) := by
  refine ⟨fun outcome pre mid post u1 u2 => ?_, fun outcome j => ?_,
    fun outcome jobs => ?_⟩
  · rw [queue_worker_append]
    show queue_worker outcome pre ++
      (processJob outcome u1 ++ queue_worker outcome (mid ++ u2 :: post)) = _
    rw [queue_worker_append]
    show _ = queue_worker outcome pre ++ processJob outcome u1 ++
      (queue_worker outcome mid ++
        (processJob outcome u2 ++ queue_worker outcome post))
    simp only [List.append_assoc]
    rfl
  · rcases hr : run_fetch_sync (outcome j) with _ | ex
    · exact ⟨BotEvent.noResults j.chat_id, by simp [processJob, hr], Or.inr rfl⟩
    · rcases ex with _ | _
      · exact ⟨BotEvent.noResults j.chat_id, by simp [processJob, hr],
          Or.inr rfl⟩
      · exact ⟨BotEvent.delivered j.chat_id, by simp [processJob, hr],
          Or.inl rfl⟩
  · have h := inflight_worker outcome jobs 0
    simpa [maxInFlight] using h
